import Mathlib

/-!
Shallow embedding of `examples/stream-rt/stream-rt.cpp` (the stream-rt example
of this whisper.cpp fork).

Audio samples are modelled as rationals: the int16 → float conversion
`sample / 32768.0f` is exact in binary32 for every int16 value, so ℚ is a
faithful carrier.  Standard input is modelled as a `List ℕ` of bytes in
wav-input mode; in raw mode it is modelled as a list of already-decoded float
samples (the reinterpretation of 4 raw bytes as one IEEE-754 float is a memory
layout detail that carries no information relevant to any claim, which concern
only sample counts, end-of-stream behaviour and zero samples).  The external
whisper engine (`whisper_full` plus its out-of-band segment accessors) is
modelled as an oracle `ℕ → EngineResult` indexed by the value of the iteration
counter `n_iter` at the call site; `whisper_init_from_file_with_params` and
`std::ofstream::open` are modelled by the two booleans `ctx_ok` and `sink_ok`.
Console/file prints of segments are recorded as trace events.
-/

namespace StreamRT

abbrev Sample := ℚ

/-- `WHISPER_SAMPLE_RATE` from whisper.h: 16000 samples per second. -/
def WHISPER_SAMPLE_RATE : ℕ := 16000

/-- The `whisper_params` struct with its field defaults.
`n_threads` defaults to `std::min(4, hardware_concurrency())`, an
environment-dependent value modelled as 4 (no claim depends on it).
`vad_thold` defaults to `0.6f`, whose exact binary32 value is
0.60000002384185791015625; the program never reads this field, and only its
positivity is ever used below, so the nominal 6/10 is used. -/
structure whisper_params where
  n_threads : ℤ := 4
  step_ms : ℤ := 3000
  length_ms : ℤ := 10000
  keep_ms : ℤ := 200
  capture_id : ℤ := -1
  max_tokens : ℤ := 32
  audio_ctx : ℤ := 0
  vad_thold : ℚ := 6 / 10
  freq_thold : ℚ := 100
  speed_up : Bool := false
  from_wav_file : Bool := false
  translate : Bool := false
  no_fallback : Bool := false
  print_special : Bool := false
  no_context : Bool := true
  no_timestamps : Bool := false
  tinydiarize : Bool := false
  save_audio : Bool := false
  use_gpu : Bool := true
  language : String := "en"
  model : String := "models/ggml-base.en.bin"
  fname_out : String := ""
  deriving DecidableEq

/-- Result of `whisper_params_parse`.  The C++ function returns `bool`, but on
`-h`/`--help` and on an unknown argument it calls `exit(0)` directly
(`exited 0`), and `std::stoi` on a malformed number throws an uncaught
`std::invalid_argument`, while `argv[++i]` past the end dereferences the
terminating null pointer; both abnormal ends are collapsed into `crashed`.
When the function does return, it always returns `true` with the filled
struct (`ok`). -/
inductive ParseResult where
  | exited (code : ℤ)
  | crashed
  | ok (p : whisper_params)
  deriving DecidableEq

/-- Model of `std::stoi` for CLI values: numeric-literal parsing is abstracted
to Lean's integer parsing; a string `std::stoi` rejects is `none` (throw).
No claim depends on the exact accepted numeric syntax. -/
def stoiModel (s : String) : Option ℤ := s.toInt?

/-- Model of `std::stof`, likewise abstracted; only used for `-vth`/`-fth`,
whose parsed values the program never reads. -/
def stofModel (s : String) : Option ℚ := (stoiModel s).map fun n => (n : ℚ)

/-- `whisper_params_parse(argc, argv, params)`: the if/else-if chain over
`argv[1..]` (the argument list here excludes `argv[0]`), one branch per flag,
in source order; the final `else` (unknown argument) prints the error and the
usage text and calls `exit(0)`. -/
def whisper_params_parse : List String → whisper_params → ParseResult
  | [], p => ParseResult.ok p
  | arg :: rest, p =>
    if arg = "-h" ∨ arg = "--help" then ParseResult.exited 0
    else if arg = "-t" ∨ arg = "--threads" then
      match rest with
      | [] => ParseResult.crashed
      | v :: rest2 =>
        match stoiModel v with
        | none => ParseResult.crashed
        | some n => whisper_params_parse rest2 { p with n_threads := n }
    else if arg = "--step" then
      match rest with
      | [] => ParseResult.crashed
      | v :: rest2 =>
        match stoiModel v with
        | none => ParseResult.crashed
        | some n => whisper_params_parse rest2 { p with step_ms := n }
    else if arg = "--length" then
      match rest with
      | [] => ParseResult.crashed
      | v :: rest2 =>
        match stoiModel v with
        | none => ParseResult.crashed
        | some n => whisper_params_parse rest2 { p with length_ms := n }
    else if arg = "--keep" then
      match rest with
      | [] => ParseResult.crashed
      | v :: rest2 =>
        match stoiModel v with
        | none => ParseResult.crashed
        | some n => whisper_params_parse rest2 { p with keep_ms := n }
    else if arg = "-c" ∨ arg = "--capture" then
      match rest with
      | [] => ParseResult.crashed
      | v :: rest2 =>
        match stoiModel v with
        | none => ParseResult.crashed
        | some n => whisper_params_parse rest2 { p with capture_id := n }
    else if arg = "-mt" ∨ arg = "--max-tokens" then
      match rest with
      | [] => ParseResult.crashed
      | v :: rest2 =>
        match stoiModel v with
        | none => ParseResult.crashed
        | some n => whisper_params_parse rest2 { p with max_tokens := n }
    else if arg = "-ac" ∨ arg = "--audio-ctx" then
      match rest with
      | [] => ParseResult.crashed
      | v :: rest2 =>
        match stoiModel v with
        | none => ParseResult.crashed
        | some n => whisper_params_parse rest2 { p with audio_ctx := n }
    else if arg = "-vth" ∨ arg = "--vad-thold" then
      match rest with
      | [] => ParseResult.crashed
      | v :: rest2 =>
        match stofModel v with
        | none => ParseResult.crashed
        | some x => whisper_params_parse rest2 { p with vad_thold := x }
    else if arg = "-fth" ∨ arg = "--freq-thold" then
      match rest with
      | [] => ParseResult.crashed
      | v :: rest2 =>
        match stofModel v with
        | none => ParseResult.crashed
        | some x => whisper_params_parse rest2 { p with freq_thold := x }
    else if arg = "-su" ∨ arg = "--speed-up" then whisper_params_parse rest { p with speed_up := true }
    else if arg = "-tr" ∨ arg = "--translate" then whisper_params_parse rest { p with translate := true }
    else if arg = "-nf" ∨ arg = "--no-fallback" then whisper_params_parse rest { p with no_fallback := true }
    else if arg = "-ps" ∨ arg = "--print-special" then whisper_params_parse rest { p with print_special := true }
    else if arg = "-kc" ∨ arg = "--keep-context" then whisper_params_parse rest { p with no_context := false }
    else if arg = "-l" ∨ arg = "--language" then
      match rest with
      | [] => ParseResult.crashed
      | v :: rest2 => whisper_params_parse rest2 { p with language := v }
    else if arg = "-m" ∨ arg = "--model" then
      match rest with
      | [] => ParseResult.crashed
      | v :: rest2 => whisper_params_parse rest2 { p with model := v }
    else if arg = "-f" ∨ arg = "--file" then
      match rest with
      | [] => ParseResult.crashed
      | v :: rest2 => whisper_params_parse rest2 { p with fname_out := v }
    else if arg = "-tdrz" ∨ arg = "--tinydiarize" then whisper_params_parse rest { p with tinydiarize := true }
    else if arg = "-sa" ∨ arg = "--save-audio" then whisper_params_parse rest { p with save_audio := true }
    else if arg = "-ng" ∨ arg = "--no-gpu" then whisper_params_parse rest { p with use_gpu := false }
    else if arg = "--from-wav-file" then whisper_params_parse rest { p with from_wav_file := true }
    else ParseResult.exited 0

/-- C's `snprintf` `%0Nd` conversion for an int value: minimum field width
`w`, zero padded (a negative value carries its sign before the zero
padding). -/
def padZeroInt (w : ℕ) (n : ℤ) : String :=
  if n < 0 then
    let s := toString (-n)
    "-" ++ String.mk (List.replicate (w - 1 - s.length) '0') ++ s
  else
    let s := toString n
    String.mk (List.replicate (w - s.length) '0') ++ s

/-- `to_timestamp(int64_t t)`: C++ `/` on int64 truncates toward zero, hence
`Int.tdiv`.  The format string is `"%02d:%02d.%03d"`, where the last field is
`msec = t - (t/100)*100`, i.e. the centisecond remainder zero-padded to three
digits (it is not scaled by 10). -/
def to_timestamp (t : ℤ) : String :=
  let sec := Int.tdiv t 100
  let msec := t - sec * 100
  let min := Int.tdiv sec 60
  let sec2 := sec - min * 60
  padZeroInt 2 min ++ ":" ++ padZeroInt 2 sec2 ++ "." ++ padZeroInt 3 msec

/-- One transcribed segment as exposed by the engine accessors
`whisper_full_get_segment_t0/t1/text` (times in centisecond ticks). -/
structure Segment where
  t0 : ℤ
  t1 : ℤ
  text : String
  deriving DecidableEq

/-- Outcome of one `whisper_full` call: non-zero return (`err`) or success
with the segments the accessors would then enumerate. -/
inductive EngineResult where
  | err
  | ok (segments : List Segment)
  deriving DecidableEq

/-- The console line printed for one segment: `printf("%s", text)` when
timestamps are suppressed, otherwise `printf("[%s --> %s] %s\n", ...)`.
(The optional file sink receives the same content.) -/
def formatSegment (p : whisper_params) (s : Segment) : String :=
  if p.no_timestamps then s.text
  else "[" ++ to_timestamp s.t0 ++ " --> " ++ to_timestamp s.t1 ++ "] " ++ s.text ++ "\n"

/-- Decode one little-endian int16 from two bytes. -/
def toInt16 (lo hi : ℕ) : ℤ :=
  let u := lo % 256 + 256 * (hi % 256)
  if u < 32768 then (u : ℤ) else (u : ℤ) - 65536

/-- Decode a byte list into int16 samples, little endian.  A trailing odd
byte overwrites only the low byte of the (zero-initialized) sample, which is
`toInt16 lo 0`. -/
def bytesToInt16LE : List ℕ → List ℤ
  | lo :: hi :: rest => toInt16 lo hi :: bytesToInt16LE rest
  | [lo] => [toInt16 lo 0]
  | [] => []

/-- Number of int16 samples in `buffer16`:
`(1e-3 * 10000) * WHISPER_SAMPLE_RATE` evaluates (exactly, in double
arithmetic) to 160000. -/
def WAV_BUFFER_SAMPLES : ℕ := 160000

/-- Bytes requested by the `std::cin.read` inside `readWavStreamAsFloats`:
`buffer16.size() * sizeof(int16_t)`. -/
def WAV_BUFFER_BYTES : ℕ := 2 * WAV_BUFFER_SAMPLES

/-- The int16 → float conversion `sample / 32768.0f` (exact in binary32 for
every int16 value). -/
def int16ToFloat (s : ℤ) : ℚ := (s : ℚ) / 32768

/-- The float window built from the bytes actually read: `buffer16` is
zero-initialized with 160000 entries, the read fills a prefix, and every
entry is converted by `sample / 32768.0f`. -/
def wavWindowFromBytes (bytes : List ℕ) : List Sample :=
  let decoded := bytesToInt16LE bytes
  let padded := decoded ++ List.replicate (WAV_BUFFER_SAMPLES - decoded.length) 0
  padded.map int16ToFloat

/-- Result of one successful `readWavStreamAsFloats()` call: the returned
float vector, the part of stdin left unconsumed, and whether `eofbit` is set
afterwards (a short read). -/
structure WavReadResult where
  samples : List Sample
  rest : List ℕ
  eofAfter : Bool
  deriving DecidableEq

/-- `readWavStreamAsFloats()`: `std::cin.ignore(44)` skips the first 44 bytes
of whatever currently remains on stdin, then `std::cin.read` pulls up to
`WAV_BUFFER_BYTES` bytes; `gcount() == 0` throws `std::runtime_error`. -/
def readWavStreamAsFloats (stream : List ℕ) : Except String WavReadResult :=
  let afterSkip := stream.drop 44
  let got := min WAV_BUFFER_BYTES afterSkip.length
  if got = 0 then
    Except.error "Error reading WAV data from standard input."
  else
    Except.ok
      { samples := wavWindowFromBytes (afterSkip.take WAV_BUFFER_BYTES)
        rest := afterSkip.drop WAV_BUFFER_BYTES
        eofAfter := decide (afterSkip.length < WAV_BUFFER_BYTES) }

/-- Result of the raw-mode `std::cin.read` into the existing `pcmf32`
buffer: the read overwrites the first `gcount` samples of the buffer and
leaves the tail untouched; `eofbit` is set exactly when fewer samples than
requested were available. -/
structure RawReadResult where
  buffer : List Sample
  rest : List Sample
  eofAfter : Bool
  deriving DecidableEq

/-- Raw-mode `std::cin.read(pcmf32.data(), pcmf32.size() * sizeof(float))`,
at sample granularity. -/
def rawCinRead (buf : List Sample) (stream : List Sample) : RawReadResult :=
  let n := buf.length
  let got := min n stream.length
  { buffer := stream.take got ++ buf.drop got
    rest := stream.drop got
    eofAfter := decide (stream.length < n) }

/-- Bit length of a natural number (0 for 0), by fuel-bounded halving;
`bitLenFuel n n` is exact for every `n` (the recursion halves at each step,
so any fuel `≥ n` is enough).  Structural recursion on the fuel keeps kernel
evaluation possible. -/
def bitLenFuel : ℕ → ℕ → ℕ
  | 0, _ => 0
  | fuel + 1, n => if n = 0 then 0 else bitLenFuel fuel (n / 2) + 1

/-- Bit length: `bitLen n = ⌊log₂ n⌋ + 1` for `n ≥ 1`, and `bitLen 0 = 0`. -/
def bitLen (n : ℕ) : ℕ := bitLenFuel n n

/-- Round the integer mantissa `N` to at most 53 significant bits, to
nearest with ties to even — IEEE-754 binary64 significand rounding in the
normal range.  Returns the rounded mantissa and the number of dropped bits:
the value `N` rounds to `mantissa * 2 ^ shift`. -/
def round53 (N : ℕ) : ℕ × ℕ :=
  let b := bitLen N
  if b ≤ 53 then (N, 0)
  else
    let shift := b - 53
    let q := N / 2 ^ shift
    let r := N % 2 ^ shift
    let half := 2 ^ (shift - 1)
    if r < half then (q, shift)
    else if half < r then (q + 1, shift)
    else if q % 2 = 0 then (q, shift) else (q + 1, shift)

/-- Integer mantissa of the C++ double literal `1e-3`
(bit pattern 0x3F50624DD2F1A9FC): the exact value of that double is
`DOUBLE_1E3_MANT * 2 ^ (-62)` ≈ 0.001000000000000000020816…, slightly above
1/1000. -/
def DOUBLE_1E3_MANT : ℕ := 4611686018427388

/-- `(int)((1e-3 * s) * WHISPER_SAMPLE_RATE)` for `s ≥ 0`, computed exactly
as IEEE-754 binary64 arithmetic does: `s` (an int) converts to double
exactly; the product with the `1e-3` double is the exact product rounded to
53 significant bits (every intermediate here is a nonnegative dyadic
`m * 2 ^ (shifts - 62)`, so this is pure integer arithmetic); the product
with 16000 is rounded the same way; the final double → int conversion
truncates toward zero.  This is NOT always `s * 16000 / 1000`: e.g.
`s = 4007` gives 64111, because `(1e-3 * 4007) * 16000` evaluates to
64111.99999999999… in double arithmetic. -/
def n_samples_step_of_nat (s : ℕ) : ℕ :=
  let r1 := round53 (DOUBLE_1E3_MANT * s)
  let r2 := round53 (r1.1 * WHISPER_SAMPLE_RATE)
  if 62 ≤ r1.2 + r2.2 then r2.1 * 2 ^ (r1.2 + r2.2 - 62)
  else r2.1 / 2 ^ (62 - r1.2 - r2.2)

/-- `const int n_samples_step = (1e-3 * params.step_ms) * WHISPER_SAMPLE_RATE`,
with the source's double arithmetic modelled exactly (see
`n_samples_step_of_nat`).  A negative `step_ms` makes the `std::vector`
constructor in `main` throw, and a `step_ms` large enough to push the double
result past `INT_MAX` makes the conversion undefined; the development is
restricted to nonnegative in-range `step_ms` (`Int.toNat` clamp). -/
def n_samples_step (p : whisper_params) : ℕ :=
  n_samples_step_of_nat p.step_ms.toNat

/-- Stdin contents, viewed according to the input mode chosen by
`params.from_wav_file`: a byte stream in wav mode, a stream of decoded float
samples in raw mode. -/
inductive AudioInput where
  | rawSamples (samples : List Sample)
  | wavBytes (bytes : List ℕ)
  deriving DecidableEq

/-- Observable events of one run, in order. -/
inductive Event where
  | sinkOpen (fname : String) (success : Bool)
  | readRaw (requestedSamples gotSamples : ℕ)
  | wavReadCall (skippedBytes requestedBytes gotBytes : ℕ)
  | engineCall (iter : ℕ) (window : List Sample)
  | emit (line : String)
  | iterEnd (n_iter : ℕ) (retained : List Sample)
  deriving DecidableEq

/-- How the `while (is_running)` loop ends. -/
inductive LoopExit where
  | eofBreak
  | engineFail
  | thrown (msg : String)
  | fuelOut
  deriving DecidableEq

/-- The segment-printing loop over `whisper_full_n_segments`. -/
def emitEvents (p : whisper_params) (segs : List Segment) : List Event :=
  segs.map fun s => Event.emit (formatSegment p s)

/-- The `while (is_running)` loop of `main`.  Per iteration: read one buffer
(wav-mode via `readWavStreamAsFloats`, which replaces `pcmf32`; raw-mode via
`std::cin.read` into the existing `pcmf32`), break on `eofbit`, call
`whisper_full` (on failure print, set `is_running = false`, `continue`),
print the segments, `++n_iter`.  `pcmf32_old` is declared in `main` and never
written, so it is threaded through unchanged; its value at each iteration end
is recorded as an `iterEnd` event.  `fuel` bounds the number of iterations of
this model (`fuelOut` means the real loop would still be running); the
mismatch arms pairing the wrong stream view with the mode flag are outside
the modelled executions and yield `fuelOut` immediately. -/
def mainLoop (p : whisper_params) (engine : ℕ → EngineResult) :
    ℕ → AudioInput → List Sample → List Sample → ℕ → List Event × LoopExit
  | 0, _, _, _, _ => ([], LoopExit.fuelOut)
  | fuel + 1, input, pcmf32, pcmf32_old, n_iter =>
    if p.from_wav_file then
      match input with
      | AudioInput.rawSamples _ => ([], LoopExit.fuelOut)
      | AudioInput.wavBytes bs =>
        let skipped := min 44 bs.length
        let gotBytes := min WAV_BUFFER_BYTES (bs.drop 44).length
        let ev0 := Event.wavReadCall skipped WAV_BUFFER_BYTES gotBytes
        match readWavStreamAsFloats bs with
        | Except.error msg => ([ev0], LoopExit.thrown msg)
        | Except.ok r =>
          if r.eofAfter then ([ev0], LoopExit.eofBreak)
          else
            match engine n_iter with
            | EngineResult.err => ([ev0, Event.engineCall n_iter r.samples], LoopExit.engineFail)
            | EngineResult.ok segs =>
              let cont := mainLoop p engine fuel (AudioInput.wavBytes r.rest) r.samples
                pcmf32_old (n_iter + 1)
              (ev0 :: Event.engineCall n_iter r.samples :: emitEvents p segs
                ++ [Event.iterEnd (n_iter + 1) pcmf32_old] ++ cont.1, cont.2)
    else
      match input with
      | AudioInput.wavBytes _ => ([], LoopExit.fuelOut)
      | AudioInput.rawSamples src =>
        let r := rawCinRead pcmf32 src
        let ev0 := Event.readRaw pcmf32.length (min pcmf32.length src.length)
        if r.eofAfter then ([ev0], LoopExit.eofBreak)
        else
          match engine n_iter with
          | EngineResult.err => ([ev0, Event.engineCall n_iter r.buffer], LoopExit.engineFail)
          | EngineResult.ok segs =>
            let cont := mainLoop p engine fuel (AudioInput.rawSamples r.rest) r.buffer
              pcmf32_old (n_iter + 1)
            (ev0 :: Event.engineCall n_iter r.buffer :: emitEvents p segs
              ++ [Event.iterEnd (n_iter + 1) pcmf32_old] ++ cont.1, cont.2)

/-- How the process ends. -/
inductive MainOutcome where
  | exitCode (c : ℤ)
  | uncaught (msg : String)
  | hang
  deriving DecidableEq

/-- The body of `main` after argument parsing: initialize the whisper context
(`ctx_ok` false models `whisper_init_from_file_with_params` returning null →
`return 2`), size `pcmf32` to `n_samples_step` zeros, declare the empty
`pcmf32_old`, open the output sink when `fname_out` is non-empty (`sink_ok`
false → `return 3`), run the loop, and return.  Note that after the loop the
function returns 0 on every path, including a `whisper_full` failure; an
uncaught exception from `readWavStreamAsFloats` terminates the process
abnormally instead. -/
def runMain (p : whisper_params) (ctx_ok sink_ok : Bool) (input : AudioInput)
    (engine : ℕ → EngineResult) (fuel : ℕ) : MainOutcome × List Event :=
  if ctx_ok = false then (MainOutcome.exitCode 2, [])
  else if p.fname_out ≠ "" ∧ sink_ok = false then
    (MainOutcome.exitCode 3, [Event.sinkOpen p.fname_out false])
  else
    let evSink : List Event :=
      if p.fname_out ≠ "" then [Event.sinkOpen p.fname_out true] else []
    let r := mainLoop p engine fuel input (List.replicate (n_samples_step p) 0) [] 0
    match r.2 with
    | LoopExit.eofBreak => (MainOutcome.exitCode 0, evSink ++ r.1)
    | LoopExit.engineFail => (MainOutcome.exitCode 0, evSink ++ r.1)
    | LoopExit.thrown msg => (MainOutcome.uncaught msg, evSink ++ r.1)
    | LoopExit.fuelOut => (MainOutcome.hang, evSink ++ r.1)

/-- The whole process: parse `argv[1..]` from the defaults, then run `main`'s
body.  `whisper_params_parse` never returns `false`, so the `return 1` branch
of `main` is unreachable; `exit(0)` inside the parser ends the process with
code 0 before any stream I/O. -/
def runProgram (args : List String) (ctx_ok sink_ok : Bool) (input : AudioInput)
    (engine : ℕ → EngineResult) (fuel : ℕ) : MainOutcome × List Event :=
  match whisper_params_parse args {} with
  | ParseResult.exited c => (MainOutcome.exitCode c, [])
  | ParseResult.crashed => (MainOutcome.uncaught "std::invalid_argument", [])
  | ParseResult.ok p => runMain p ctx_ok sink_ok input engine fuel

/-- The number of samples in the buffer `whisper_full` receives, by mode:
`pcmf32.size()` stays `n_samples_step` in raw mode, and
`readWavStreamAsFloats` always returns a `WAV_BUFFER_SAMPLES`-element
vector in wav mode. -/
def engineBufferSize (p : whisper_params) : ℕ :=
  if p.from_wav_file then WAV_BUFFER_SAMPLES else n_samples_step p

/-- Trace predicate: the event is a `whisper_full` call. -/
def isEngineCall : Event → Bool
  | Event.engineCall _ _ => true
  | _ => false

/-- Trace predicate: the event is a printed segment. -/
def isEmit : Event → Bool
  | Event.emit _ => true
  | _ => false

/-- Trace predicate: the event is an iteration boundary. -/
def isIterEnd : Event → Bool
  | Event.iterEnd _ _ => true
  | _ => false

/-- Trace predicate: the event is a read from the sample source. -/
def isReadEvent : Event → Bool
  | Event.readRaw _ _ => true
  | Event.wavReadCall _ _ _ => true
  | _ => false

/-- Holds of events that are not engine calls with a window of a size other
than `n`. -/
def engineCallLenIs (n : ℕ) : Event → Bool
  | Event.engineCall _ w => w.length == n
  | _ => true

/-- Holds of events that are not iteration ends carrying a retained-context
value other than `old`. -/
def iterEndRetainedIs (old : List Sample) : Event → Bool
  | Event.iterEnd _ r => r == old
  | _ => true

/-- Every wav read that obtained at least one byte skipped exactly 44 bytes
of the remaining stream first. -/
def wavSkipOK : Event → Bool
  | Event.wavReadCall s _ got => got == 0 || s == 44
  | _ => true

/-- Scans a trace: once a read yields fewer bytes/samples than requested, no
engine call may follow (no short window is ever forwarded). -/
def noCallAfterShortRead : List Event → Bool
  | [] => true
  | Event.readRaw req got :: rest =>
      if got < req then rest.all fun e => !(isEngineCall e)
      else noCallAfterShortRead rest
  | Event.wavReadCall _ req got :: rest =>
      if got < req then rest.all fun e => !(isEngineCall e)
      else noCallAfterShortRead rest
  | _ :: rest => noCallAfterShortRead rest

/-- The trace of a raw-mode run whose iterations `iter, …, iter+k-1` succeed
(with segment lists `segs`) and whose iteration `iter+k` fails the engine
call: each successful iteration reads a full window of `n` samples, calls the
engine, prints its segments and advances; the failing iteration reads and
calls but emits nothing and ends the loop. -/
def expectedFailTrace (p : whisper_params) (segs : ℕ → List Segment) (n : ℕ) :
    ℕ → ℕ → List Sample → List Sample → List Event
  | 0, iter, src, _ =>
      [Event.readRaw n n, Event.engineCall iter (src.take n)]
  | k + 1, iter, src, old =>
      Event.readRaw n n :: Event.engineCall iter (src.take n) :: emitEvents p (segs iter)
        ++ [Event.iterEnd (iter + 1) old]
        ++ expectedFailTrace p segs n k (iter + 1) (src.drop n) old


/-! ### Helper lemmas -/

theorem bytesToInt16LE_length (l : List ℕ) :
    (bytesToInt16LE l).length = (l.length + 1) / 2 := by
  induction l using bytesToInt16LE.induct
  all_goals simp_all [bytesToInt16LE]
  all_goals omega

theorem wavWindowFromBytes_length (bytes : List ℕ)
    (h : bytes.length ≤ WAV_BUFFER_BYTES) :
    (wavWindowFromBytes bytes).length = WAV_BUFFER_SAMPLES := by
  unfold wavWindowFromBytes
  rw [List.length_map, List.length_append, List.length_replicate, bytesToInt16LE_length]
  unfold WAV_BUFFER_BYTES WAV_BUFFER_SAMPLES at *
  omega

theorem rawCinRead_buffer_length (buf src : List Sample) :
    ((rawCinRead buf src).buffer).length = buf.length := by
  unfold rawCinRead
  simp

theorem readWav_ok_eq (bs : List ℕ) (h : ¬ min WAV_BUFFER_BYTES (bs.drop 44).length = 0) :
    readWavStreamAsFloats bs
      = Except.ok
          { samples := wavWindowFromBytes ((bs.drop 44).take WAV_BUFFER_BYTES)
            rest := (bs.drop 44).drop WAV_BUFFER_BYTES
            eofAfter := decide ((bs.drop 44).length < WAV_BUFFER_BYTES) } := by
  unfold readWavStreamAsFloats
  rw [if_neg h]

theorem readWav_error_eq (bs : List ℕ) (h : min WAV_BUFFER_BYTES (bs.drop 44).length = 0) :
    readWavStreamAsFloats bs = Except.error "Error reading WAV data from standard input." := by
  unfold readWavStreamAsFloats
  rw [if_pos h]

theorem readWav_samples_length (bs : List ℕ) (r : WavReadResult)
    (h : readWavStreamAsFloats bs = Except.ok r) :
    r.samples.length = WAV_BUFFER_SAMPLES := by
  by_cases hz : min WAV_BUFFER_BYTES (bs.drop 44).length = 0
  · rw [readWav_error_eq bs hz] at h; cases h
  · rw [readWav_ok_eq bs hz] at h
    cases h
    apply wavWindowFromBytes_length
    rw [List.length_take]
    exact min_le_left _ _

theorem readWav_ok_got_pos (bs : List ℕ) (r : WavReadResult)
    (h : readWavStreamAsFloats bs = Except.ok r) :
    ¬ min WAV_BUFFER_BYTES (bs.drop 44).length = 0 := by
  by_cases hz : min WAV_BUFFER_BYTES (bs.drop 44).length = 0
  · rw [readWav_error_eq bs hz] at h; cases h
  · exact hz

theorem readWav_error_got (bs : List ℕ) (msg : String)
    (h : readWavStreamAsFloats bs = Except.error msg) :
    min WAV_BUFFER_BYTES (bs.drop 44).length = 0 := by
  by_cases hz : min WAV_BUFFER_BYTES (bs.drop 44).length = 0
  · exact hz
  · rw [readWav_ok_eq bs hz] at h; cases h

theorem readWav_ok_fields (bs : List ℕ) (r : WavReadResult)
    (h : readWavStreamAsFloats bs = Except.ok r) :
    r = { samples := wavWindowFromBytes ((bs.drop 44).take WAV_BUFFER_BYTES)
          rest := (bs.drop 44).drop WAV_BUFFER_BYTES
          eofAfter := decide ((bs.drop 44).length < WAV_BUFFER_BYTES) } := by
  by_cases hz : min WAV_BUFFER_BYTES (bs.drop 44).length = 0
  · rw [readWav_error_eq bs hz] at h; cases h
  · rw [readWav_ok_eq bs hz] at h; cases h; rfl

theorem mainLoop_retained (p : whisper_params) (engine : ℕ → EngineResult) :
    ∀ (fuel : ℕ) (input : AudioInput) (buf old : List Sample) (iter : ℕ),
      ((mainLoop p engine fuel input buf old iter).1.all (iterEndRetainedIs old)) = true := by
  intro fuel
  induction fuel with
  | zero => intro input buf old iter; simp [mainLoop]
  | succ fuel ih =>
    intro input buf old iter
    by_cases hfw : p.from_wav_file = true
    · cases input with
      | rawSamples src => simp [mainLoop, hfw]
      | wavBytes bs =>
        simp only [mainLoop, hfw, if_true]
        cases hr : readWavStreamAsFloats bs with
        | error msg => simp [iterEndRetainedIs]
        | ok r =>
          by_cases heof : r.eofAfter = true
          · simp [heof, iterEndRetainedIs]
          · simp only [Bool.not_eq_true] at heof
            simp only [heof, Bool.false_eq_true, if_false]
            cases hE : engine iter with
            | err => simp [iterEndRetainedIs]
            | ok segs =>
              have hrec := ih (AudioInput.wavBytes r.rest) r.samples old (iter + 1)
              simp [iterEndRetainedIs, emitEvents, List.all_map] at hrec ⊢
              exact hrec
    · simp only [Bool.not_eq_true] at hfw
      cases input with
      | wavBytes bs => simp [mainLoop, hfw]
      | rawSamples src =>
        simp only [mainLoop, hfw, Bool.false_eq_true, if_false]
        by_cases heof : (rawCinRead buf src).eofAfter = true
        · simp [heof, iterEndRetainedIs]
        · simp only [Bool.not_eq_true] at heof
          simp only [heof, Bool.false_eq_true, if_false]
          cases hE : engine iter with
          | err => simp [iterEndRetainedIs]
          | ok segs =>
            have hrec := ih (AudioInput.rawSamples (rawCinRead buf src).rest)
              (rawCinRead buf src).buffer old (iter + 1)
            simp [iterEndRetainedIs, emitEvents, List.all_map] at hrec ⊢
            exact hrec

theorem mainLoop_window_lengths (p : whisper_params) (engine : ℕ → EngineResult) :
    ∀ (fuel : ℕ) (input : AudioInput) (buf old : List Sample) (iter : ℕ),
      (p.from_wav_file = false → buf.length = n_samples_step p) →
      ((mainLoop p engine fuel input buf old iter).1.all
        (engineCallLenIs (engineBufferSize p))) = true := by
  intro fuel
  induction fuel with
  | zero => intro input buf old iter _; simp [mainLoop]
  | succ fuel ih =>
    intro input buf old iter hbuf
    by_cases hfw : p.from_wav_file = true
    · cases input with
      | rawSamples src => simp [mainLoop, hfw]
      | wavBytes bs =>
        simp only [mainLoop, hfw, if_true]
        cases hr : readWavStreamAsFloats bs with
        | error msg => simp [engineCallLenIs]
        | ok r =>
          by_cases heof : r.eofAfter = true
          · simp [heof, engineCallLenIs]
          · simp only [Bool.not_eq_true] at heof
            simp only [heof, Bool.false_eq_true, if_false]
            have hlen : r.samples.length = WAV_BUFFER_SAMPLES := readWav_samples_length bs r hr
            have hvac : p.from_wav_file = false → r.samples.length = n_samples_step p := by
              intro hc; rw [hc] at hfw; cases hfw
            cases hE : engine iter with
            | err => simp [engineCallLenIs, engineBufferSize, hfw, hlen]
            | ok segs =>
              have hrec := ih (AudioInput.wavBytes r.rest) r.samples old (iter + 1) hvac
              simp [engineCallLenIs, engineBufferSize, hfw, hlen, emitEvents,
                List.all_map] at hrec ⊢
              exact hrec
    · simp only [Bool.not_eq_true] at hfw
      cases input with
      | wavBytes bs => simp [mainLoop, hfw]
      | rawSamples src =>
        simp only [mainLoop, hfw, Bool.false_eq_true, if_false]
        have hlen : (rawCinRead buf src).buffer.length = n_samples_step p := by
          rw [rawCinRead_buffer_length]; exact hbuf hfw
        by_cases heof : (rawCinRead buf src).eofAfter = true
        · simp [heof, engineCallLenIs]
        · simp only [Bool.not_eq_true] at heof
          simp only [heof, Bool.false_eq_true, if_false]
          cases hE : engine iter with
          | err => simp [engineCallLenIs, engineBufferSize, hfw, hlen]
          | ok segs =>
            have hrec := ih (AudioInput.rawSamples (rawCinRead buf src).rest)
              (rawCinRead buf src).buffer old (iter + 1) (fun _ => hlen)
            simp [engineCallLenIs, engineBufferSize, hfw, hlen, emitEvents,
              List.all_map] at hrec ⊢
            exact hrec

theorem mainLoop_wavSkip (p : whisper_params) (engine : ℕ → EngineResult) :
    ∀ (fuel : ℕ) (input : AudioInput) (buf old : List Sample) (iter : ℕ),
      ((mainLoop p engine fuel input buf old iter).1.all wavSkipOK) = true := by
  intro fuel
  induction fuel with
  | zero => intro input buf old iter; simp [mainLoop]
  | succ fuel ih =>
    intro input buf old iter
    by_cases hfw : p.from_wav_file = true
    · cases input with
      | rawSamples src => simp [mainLoop, hfw]
      | wavBytes bs =>
        simp only [mainLoop, hfw, if_true]
        cases hr : readWavStreamAsFloats bs with
        | error msg =>
          have h0 := readWav_error_got bs msg hr
          simp only [List.length_drop] at h0
          simp [wavSkipOK, h0]
        | ok r =>
          have hg := readWav_ok_got_pos bs r hr
          simp only [List.length_drop] at hg
          have hskip : min 44 bs.length = 44 := by omega
          by_cases heof : r.eofAfter = true
          · simp [heof, wavSkipOK, hskip]
          · simp only [Bool.not_eq_true] at heof
            simp only [heof, Bool.false_eq_true, if_false]
            cases hE : engine iter with
            | err => simp [wavSkipOK, hskip]
            | ok segs =>
              have hrec := ih (AudioInput.wavBytes r.rest) r.samples old (iter + 1)
              simp [wavSkipOK, hskip, emitEvents, List.all_map] at hrec ⊢
              exact hrec
    · simp only [Bool.not_eq_true] at hfw
      cases input with
      | wavBytes bs => simp [mainLoop, hfw]
      | rawSamples src =>
        simp only [mainLoop, hfw, Bool.false_eq_true, if_false]
        by_cases heof : (rawCinRead buf src).eofAfter = true
        · simp [heof, wavSkipOK]
        · simp only [Bool.not_eq_true] at heof
          simp only [heof, Bool.false_eq_true, if_false]
          cases hE : engine iter with
          | err => simp [wavSkipOK]
          | ok segs =>
            have hrec := ih (AudioInput.rawSamples (rawCinRead buf src).rest)
              (rawCinRead buf src).buffer old (iter + 1)
            simp [wavSkipOK, emitEvents, List.all_map] at hrec ⊢
            exact hrec

theorem noCall_cons_engine (i : ℕ) (w : List Sample) (l : List Event) :
    noCallAfterShortRead (Event.engineCall i w :: l) = noCallAfterShortRead l := rfl

theorem noCall_cons_emit (s : String) (l : List Event) :
    noCallAfterShortRead (Event.emit s :: l) = noCallAfterShortRead l := rfl

theorem noCall_cons_iterEnd (k : ℕ) (r : List Sample) (l : List Event) :
    noCallAfterShortRead (Event.iterEnd k r :: l) = noCallAfterShortRead l := rfl

theorem noCall_cons_sink (f : String) (b : Bool) (l : List Event) :
    noCallAfterShortRead (Event.sinkOpen f b :: l) = noCallAfterShortRead l := rfl

theorem noCall_emit_append (p : whisper_params) (segs : List Segment) (l : List Event) :
    noCallAfterShortRead (emitEvents p segs ++ l) = noCallAfterShortRead l := by
  induction segs with
  | nil => simp [emitEvents]
  | cons s t ih =>
    simp only [emitEvents, List.map_cons, List.cons_append]
    rw [noCall_cons_emit]
    simpa [emitEvents] using ih

theorem noCall_cons_readRaw (req got : ℕ) (l : List Event) :
    noCallAfterShortRead (Event.readRaw req got :: l)
      = if got < req then l.all (fun e => !(isEngineCall e)) else noCallAfterShortRead l := rfl

theorem noCall_cons_wavRead (s req got : ℕ) (l : List Event) :
    noCallAfterShortRead (Event.wavReadCall s req got :: l)
      = if got < req then l.all (fun e => !(isEngineCall e)) else noCallAfterShortRead l := rfl

theorem mainLoop_noCallAfterShortRead (p : whisper_params) (engine : ℕ → EngineResult) :
    ∀ (fuel : ℕ) (input : AudioInput) (buf old : List Sample) (iter : ℕ),
      noCallAfterShortRead (mainLoop p engine fuel input buf old iter).1 = true := by
  intro fuel
  induction fuel with
  | zero => intro input buf old iter; simp [mainLoop, noCallAfterShortRead]
  | succ fuel ih =>
    intro input buf old iter
    by_cases hfw : p.from_wav_file = true
    · cases input with
      | rawSamples src => simp [mainLoop, hfw, noCallAfterShortRead]
      | wavBytes bs =>
        simp only [mainLoop, hfw, if_true]
        cases hr : readWavStreamAsFloats bs with
        | error msg =>
          rw [noCall_cons_wavRead]
          split <;> simp [noCallAfterShortRead]
        | ok r =>
          have hfields := readWav_ok_fields bs r hr
          by_cases heof : r.eofAfter = true
          · simp only [heof, if_true]
            rw [noCall_cons_wavRead]
            split <;> simp [noCallAfterShortRead]
          · simp only [Bool.not_eq_true] at heof
            simp only [heof, Bool.false_eq_true, if_false]
            have hlong : ¬ ((bs.drop 44).length < WAV_BUFFER_BYTES) := by
              rw [hfields] at heof
              simpa using heof
            have hgot : min WAV_BUFFER_BYTES (bs.drop 44).length = WAV_BUFFER_BYTES := by
              omega
            cases hE : engine iter with
            | err =>
              dsimp only
              rw [noCall_cons_wavRead]
              simp only [List.length_drop] at hgot
              simp only [List.length_drop, hgot, lt_irrefl, if_false]
              rw [noCall_cons_engine]
              simp [noCallAfterShortRead]
            | ok segs =>
              dsimp only
              simp only [List.cons_append, List.append_assoc]
              rw [noCall_cons_wavRead]
              simp only [List.length_drop] at hgot
              simp only [List.length_drop, hgot, lt_irrefl, if_false]
              rw [noCall_cons_engine, noCall_emit_append, noCall_cons_iterEnd,
                List.nil_append]
              exact ih _ _ _ _
    · simp only [Bool.not_eq_true] at hfw
      cases input with
      | wavBytes bs => simp [mainLoop, hfw, noCallAfterShortRead]
      | rawSamples src =>
        simp only [mainLoop, hfw, Bool.false_eq_true, if_false]
        by_cases heof : (rawCinRead buf src).eofAfter = true
        · simp only [heof, if_true]
          rw [noCall_cons_readRaw]
          split <;> simp [noCallAfterShortRead]
        · simp only [Bool.not_eq_true] at heof
          simp only [heof, Bool.false_eq_true, if_false]
          have hlong : ¬ (src.length < buf.length) := by
            unfold rawCinRead at heof
            simpa using heof
          have hgot : min buf.length src.length = buf.length := by omega
          cases hE : engine iter with
          | err =>
            dsimp only
            rw [noCall_cons_readRaw]
            simp only [hgot, lt_irrefl, if_false]
            rw [noCall_cons_engine]
            simp [noCallAfterShortRead]
          | ok segs =>
            dsimp only
            simp only [List.cons_append, List.append_assoc]
            rw [noCall_cons_readRaw]
            simp only [hgot, lt_irrefl, if_false]
            rw [noCall_cons_engine, noCall_emit_append, noCall_cons_iterEnd,
              List.nil_append]
            exact ih _ _ _ _

theorem formatSegment_congr (p q : whisper_params) (hnt : p.no_timestamps = q.no_timestamps)
    (s : Segment) : formatSegment p s = formatSegment q s := by
  unfold formatSegment
  rw [hnt]

theorem emitEvents_congr (p q : whisper_params) (hnt : p.no_timestamps = q.no_timestamps)
    (segs : List Segment) : emitEvents p segs = emitEvents q segs := by
  unfold emitEvents
  simp only [formatSegment_congr p q hnt]

theorem mainLoop_congr (p q : whisper_params) (engine : ℕ → EngineResult)
    (hfw : p.from_wav_file = q.from_wav_file)
    (hnt : p.no_timestamps = q.no_timestamps) :
    ∀ (fuel : ℕ) (input : AudioInput) (buf old : List Sample) (iter : ℕ),
      mainLoop p engine fuel input buf old iter = mainLoop q engine fuel input buf old iter := by
  intro fuel
  induction fuel with
  | zero => intro input buf old iter; rfl
  | succ fuel ih =>
    intro input buf old iter
    simp only [mainLoop, hfw, emitEvents_congr p q hnt, ih]

theorem runMain_congr (p q : whisper_params) (ctx_ok sink_ok : Bool) (input : AudioInput)
    (engine : ℕ → EngineResult) (fuel : ℕ)
    (hfw : p.from_wav_file = q.from_wav_file)
    (hnt : p.no_timestamps = q.no_timestamps)
    (hfn : p.fname_out = q.fname_out)
    (hst : p.step_ms = q.step_ms) :
    runMain p ctx_ok sink_ok input engine fuel = runMain q ctx_ok sink_ok input engine fuel := by
  unfold runMain n_samples_step
  rw [hfn, hst, mainLoop_congr p q engine hfw hnt]

theorem runMain_all (p : whisper_params) (ctx_ok sink_ok : Bool) (input : AudioInput)
    (engine : ℕ → EngineResult) (fuel : ℕ) (P : Event → Bool)
    (hsink : ∀ f b, P (Event.sinkOpen f b) = true)
    (hloop : ((mainLoop p engine fuel input
      (List.replicate (n_samples_step p) 0) [] 0).1.all P) = true) :
    ((runMain p ctx_ok sink_ok input engine fuel).2.all P) = true := by
  unfold runMain
  by_cases hc : ctx_ok = false
  · simp [hc]
  · by_cases hs : p.fname_out ≠ "" ∧ sink_ok = false
    · simp [hc, hs, hsink]
    · by_cases hf : p.fname_out ≠ ""
      · have hsok : ¬ sink_ok = false := fun hh => hs ⟨hf, hh⟩
        cases h2 : (mainLoop p engine fuel input (List.replicate (n_samples_step p) 0) [] 0).2 <;>
          simp [hc, hf, hsok, h2, hsink, hloop]
      · cases h2 : (mainLoop p engine fuel input (List.replicate (n_samples_step p) 0) [] 0).2 <;>
          simp [hc, hs, hf, h2, hloop]

theorem runMain_noCallAfterShortRead (p : whisper_params) (ctx_ok sink_ok : Bool)
    (input : AudioInput) (engine : ℕ → EngineResult) (fuel : ℕ) :
    noCallAfterShortRead (runMain p ctx_ok sink_ok input engine fuel).2 = true := by
  have hloop := mainLoop_noCallAfterShortRead p engine fuel input
    (List.replicate (n_samples_step p) 0) [] 0
  unfold runMain
  by_cases hc : ctx_ok = false
  · simp [hc, noCallAfterShortRead]
  · by_cases hs : p.fname_out ≠ "" ∧ sink_ok = false
    · simp only [if_neg hc, if_pos hs]
      rw [noCall_cons_sink]
      rfl
    · by_cases hf : p.fname_out ≠ ""
      · have hsok : ¬ sink_ok = false := fun hh => hs ⟨hf, hh⟩
        cases h2 : (mainLoop p engine fuel input (List.replicate (n_samples_step p) 0) [] 0).2 <;>
          · simp only [if_neg hc, if_neg hs, h2]
            rw [if_pos hf, List.singleton_append, noCall_cons_sink]
            exact hloop
      · cases h2 : (mainLoop p engine fuel input (List.replicate (n_samples_step p) 0) [] 0).2 <;>
          · simp only [if_neg hc, if_neg hs, h2]
            rw [if_neg hf, List.nil_append]
            exact hloop

theorem mainLoop_failAt (p : whisper_params) (engine : ℕ → EngineResult)
    (segs : ℕ → List Segment) (n : ℕ) (hfw : p.from_wav_file = false) :
    ∀ (k fuel iter : ℕ) (src buf old : List Sample),
      buf.length = n →
      (k + 1) * n ≤ src.length →
      k + 1 ≤ fuel →
      (∀ j, j < k → engine (iter + j) = EngineResult.ok (segs (iter + j))) →
      engine (iter + k) = EngineResult.err →
      mainLoop p engine fuel (AudioInput.rawSamples src) buf old iter
        = (expectedFailTrace p segs n k iter src old, LoopExit.engineFail) := by
  intro k
  induction k with
  | zero =>
    intro fuel iter src buf old hbuf hsrc hfuel hsucc hfail
    obtain ⟨f, rfl⟩ : ∃ f, fuel = f + 1 := ⟨fuel - 1, by omega⟩
    have hsrcn : n ≤ src.length := by simpa using hsrc
    have hfail0 : engine iter = EngineResult.err := by simpa using hfail
    have hne : ¬ (src.length < buf.length) := by rw [hbuf]; omega
    have heof : (rawCinRead buf src).eofAfter = false := by
      unfold rawCinRead; simp [hne]
    have hmin : min buf.length src.length = buf.length := by omega
    have hdrop : buf.drop buf.length = [] := List.drop_length buf
    have hbuffer : (rawCinRead buf src).buffer = src.take n := by
      unfold rawCinRead; dsimp only; rw [hmin, hdrop, hbuf]; simp
    simp only [mainLoop, hfw, Bool.false_eq_true, if_false, heof, hfail0]
    rw [hbuffer, hbuf]
    have hng : n ⊓ src.length = n := by omega
    rw [hng]
    simp [expectedFailTrace]
  | succ k ihk =>
    intro fuel iter src buf old hbuf hsrc hfuel hsucc hfail
    obtain ⟨f, rfl⟩ : ∃ f, fuel = f + 1 := ⟨fuel - 1, by omega⟩
    rw [Nat.succ_mul] at hsrc
    have hsrcn : n ≤ src.length := by omega
    have hok0 : engine iter = EngineResult.ok (segs iter) := by
      have := hsucc 0 (by omega)
      simpa using this
    have hne : ¬ (src.length < buf.length) := by rw [hbuf]; omega
    have heof : (rawCinRead buf src).eofAfter = false := by
      unfold rawCinRead; simp [hne]
    have hmin : min buf.length src.length = buf.length := by omega
    have hdrop : buf.drop buf.length = [] := List.drop_length buf
    have hbuffer : (rawCinRead buf src).buffer = src.take n := by
      unfold rawCinRead; dsimp only; rw [hmin, hdrop, hbuf]; simp
    have hrest : (rawCinRead buf src).rest = src.drop n := by
      unfold rawCinRead; dsimp only; rw [hmin, hbuf]
    have hrec := ihk f (iter + 1) (src.drop n) (src.take n) old
      (by rw [List.length_take]; omega)
      (by rw [List.length_drop]; omega)
      (by omega)
      (fun j hj => by
        have := hsucc (j + 1) (by omega)
        rwa [show iter + (j + 1) = iter + 1 + j by omega] at this)
      (by rwa [show iter + 1 + k = iter + (k + 1) by omega])
    simp only [mainLoop, hfw, Bool.false_eq_true, if_false, heof, hok0]
    rw [hbuffer, hrest, hbuf]
    have hng : n ⊓ src.length = n := by omega
    rw [hng, hrec]
    simp [expectedFailTrace]

set_option maxHeartbeats 2000000 in
theorem parse_exited_zero : ∀ (args : List String) (p : whisper_params) (c : ℤ),
    whisper_params_parse args p = ParseResult.exited c → c = 0 := by
  suffices H : ∀ (m : ℕ) (args : List String), args.length ≤ m →
      ∀ (p : whisper_params) (c : ℤ),
        whisper_params_parse args p = ParseResult.exited c → c = 0 by
    intro args p c
    exact H args.length args le_rfl p c
  intro m
  induction m with
  | zero =>
    intro args hlen p c h
    match args with
    | [] => simp [whisper_params_parse] at h
    | a :: rest => simp only [List.length_cons] at hlen; omega
  | succ m ih =>
    intro args hlen p c h
    match args with
    | [] => simp [whisper_params_parse] at h
    | arg :: rest =>
      rw [whisper_params_parse.eq_def] at h
      dsimp only at h
      simp only [List.length_cons] at hlen
      by_cases h1 : arg = "-h" ∨ arg = "--help"
      · rw [if_pos h1] at h
        injection h with hinj
        omega
      · rw [if_neg h1] at h
        by_cases h2 : arg = "-t" ∨ arg = "--threads"
        · rw [if_pos h2] at h
          cases rest with
          | nil => dsimp only at h; cases h
          | cons v rest2 =>
            dsimp only at h
            cases hs : stoiModel v with
            | none => rw [hs] at h; dsimp only at h; cases h
            | some n =>
              rw [hs] at h
              dsimp only at h
              exact ih rest2 (by simp only [List.length_cons] at hlen; omega) _ _ h
        · rw [if_neg h2] at h
          by_cases h3 : arg = "--step"
          · rw [if_pos h3] at h
            cases rest with
            | nil => dsimp only at h; cases h
            | cons v rest2 =>
              dsimp only at h
              cases hs : stoiModel v with
              | none => rw [hs] at h; dsimp only at h; cases h
              | some n =>
                rw [hs] at h
                dsimp only at h
                exact ih rest2 (by simp only [List.length_cons] at hlen; omega) _ _ h
          · rw [if_neg h3] at h
            by_cases h4 : arg = "--length"
            · rw [if_pos h4] at h
              cases rest with
              | nil => dsimp only at h; cases h
              | cons v rest2 =>
                dsimp only at h
                cases hs : stoiModel v with
                | none => rw [hs] at h; dsimp only at h; cases h
                | some n =>
                  rw [hs] at h
                  dsimp only at h
                  exact ih rest2 (by simp only [List.length_cons] at hlen; omega) _ _ h
            · rw [if_neg h4] at h
              by_cases h5 : arg = "--keep"
              · rw [if_pos h5] at h
                cases rest with
                | nil => dsimp only at h; cases h
                | cons v rest2 =>
                  dsimp only at h
                  cases hs : stoiModel v with
                  | none => rw [hs] at h; dsimp only at h; cases h
                  | some n =>
                    rw [hs] at h
                    dsimp only at h
                    exact ih rest2 (by simp only [List.length_cons] at hlen; omega) _ _ h
              · rw [if_neg h5] at h
                by_cases h6 : arg = "-c" ∨ arg = "--capture"
                · rw [if_pos h6] at h
                  cases rest with
                  | nil => dsimp only at h; cases h
                  | cons v rest2 =>
                    dsimp only at h
                    cases hs : stoiModel v with
                    | none => rw [hs] at h; dsimp only at h; cases h
                    | some n =>
                      rw [hs] at h
                      dsimp only at h
                      exact ih rest2 (by simp only [List.length_cons] at hlen; omega) _ _ h
                · rw [if_neg h6] at h
                  by_cases h7 : arg = "-mt" ∨ arg = "--max-tokens"
                  · rw [if_pos h7] at h
                    cases rest with
                    | nil => dsimp only at h; cases h
                    | cons v rest2 =>
                      dsimp only at h
                      cases hs : stoiModel v with
                      | none => rw [hs] at h; dsimp only at h; cases h
                      | some n =>
                        rw [hs] at h
                        dsimp only at h
                        exact ih rest2 (by simp only [List.length_cons] at hlen; omega) _ _ h
                  · rw [if_neg h7] at h
                    by_cases h8 : arg = "-ac" ∨ arg = "--audio-ctx"
                    · rw [if_pos h8] at h
                      cases rest with
                      | nil => dsimp only at h; cases h
                      | cons v rest2 =>
                        dsimp only at h
                        cases hs : stoiModel v with
                        | none => rw [hs] at h; dsimp only at h; cases h
                        | some n =>
                          rw [hs] at h
                          dsimp only at h
                          exact ih rest2 (by simp only [List.length_cons] at hlen; omega) _ _ h
                    · rw [if_neg h8] at h
                      by_cases h9 : arg = "-vth" ∨ arg = "--vad-thold"
                      · rw [if_pos h9] at h
                        cases rest with
                        | nil => dsimp only at h; cases h
                        | cons v rest2 =>
                          dsimp only at h
                          cases hs : stofModel v with
                          | none => rw [hs] at h; dsimp only at h; cases h
                          | some n =>
                            rw [hs] at h
                            dsimp only at h
                            exact ih rest2 (by simp only [List.length_cons] at hlen; omega) _ _ h
                      · rw [if_neg h9] at h
                        by_cases h10 : arg = "-fth" ∨ arg = "--freq-thold"
                        · rw [if_pos h10] at h
                          cases rest with
                          | nil => dsimp only at h; cases h
                          | cons v rest2 =>
                            dsimp only at h
                            cases hs : stofModel v with
                            | none => rw [hs] at h; dsimp only at h; cases h
                            | some n =>
                              rw [hs] at h
                              dsimp only at h
                              exact ih rest2 (by simp only [List.length_cons] at hlen; omega) _ _ h
                        · rw [if_neg h10] at h
                          by_cases h11 : arg = "-su" ∨ arg = "--speed-up"
                          · rw [if_pos h11] at h
                            exact ih rest (by omega) _ _ h
                          · rw [if_neg h11] at h
                            by_cases h12 : arg = "-tr" ∨ arg = "--translate"
                            · rw [if_pos h12] at h
                              exact ih rest (by omega) _ _ h
                            · rw [if_neg h12] at h
                              by_cases h13 : arg = "-nf" ∨ arg = "--no-fallback"
                              · rw [if_pos h13] at h
                                exact ih rest (by omega) _ _ h
                              · rw [if_neg h13] at h
                                by_cases h14 : arg = "-ps" ∨ arg = "--print-special"
                                · rw [if_pos h14] at h
                                  exact ih rest (by omega) _ _ h
                                · rw [if_neg h14] at h
                                  by_cases h15 : arg = "-kc" ∨ arg = "--keep-context"
                                  · rw [if_pos h15] at h
                                    exact ih rest (by omega) _ _ h
                                  · rw [if_neg h15] at h
                                    by_cases h16 : arg = "-l" ∨ arg = "--language"
                                    · rw [if_pos h16] at h
                                      cases rest with
                                      | nil => dsimp only at h; cases h
                                      | cons v rest2 =>
                                        dsimp only at h
                                        exact ih rest2 (by simp only [List.length_cons] at hlen; omega) _ _ h
                                    · rw [if_neg h16] at h
                                      by_cases h17 : arg = "-m" ∨ arg = "--model"
                                      · rw [if_pos h17] at h
                                        cases rest with
                                        | nil => dsimp only at h; cases h
                                        | cons v rest2 =>
                                          dsimp only at h
                                          exact ih rest2 (by simp only [List.length_cons] at hlen; omega) _ _ h
                                      · rw [if_neg h17] at h
                                        by_cases h18 : arg = "-f" ∨ arg = "--file"
                                        · rw [if_pos h18] at h
                                          cases rest with
                                          | nil => dsimp only at h; cases h
                                          | cons v rest2 =>
                                            dsimp only at h
                                            exact ih rest2 (by simp only [List.length_cons] at hlen; omega) _ _ h
                                        · rw [if_neg h18] at h
                                          by_cases h19 : arg = "-tdrz" ∨ arg = "--tinydiarize"
                                          · rw [if_pos h19] at h
                                            exact ih rest (by omega) _ _ h
                                          · rw [if_neg h19] at h
                                            by_cases h20 : arg = "-sa" ∨ arg = "--save-audio"
                                            · rw [if_pos h20] at h
                                              exact ih rest (by omega) _ _ h
                                            · rw [if_neg h20] at h
                                              by_cases h21 : arg = "-ng" ∨ arg = "--no-gpu"
                                              · rw [if_pos h21] at h
                                                exact ih rest (by omega) _ _ h
                                              · rw [if_neg h21] at h
                                                by_cases h22 : arg = "--from-wav-file"
                                                · rw [if_pos h22] at h
                                                  exact ih rest (by omega) _ _ h
                                                · rw [if_neg h22] at h
                                                  injection h with hinj
                                                  omega

/-! ### Claim theorems -/

/-- C1 (counterexample): with the keep-context flag enabled (`-kc`, i.e.
`no_context = false`) and the default `keep_ms = 200`, the target retained
length is `keep_ms * sampleRate / 1000 = 3200`, yet after both the first and
the second iteration the Retained Context `pcmf32_old` is `[]` (length 0),
refuting the claimed invariant. -/
theorem C1_counterexample :
    ({ step_ms := 1, no_context := false } : whisper_params).no_context = false
    ∧ ({ step_ms := 1, no_context := false } : whisper_params).keep_ms
        * (WHISPER_SAMPLE_RATE : ℤ) / 1000 = 3200
    ∧ ((runMain { step_ms := 1, no_context := false } true true
          (AudioInput.rawSamples (List.replicate 32 0)) (fun _ => EngineResult.ok []) 5).2.filter
          isIterEnd)
        = [Event.iterEnd 1 [], Event.iterEnd 2 []]
    ∧ (3200 : ℤ) ≠ ((List.length ([] : List Sample) : ℤ)) := by
  decide

/-- C1 (amended): `pcmf32_old` is declared in `main` and never written, so
the Retained Context is empty at the end of every iteration of every run,
regardless of the keep-context flag and of `keep_ms`. -/
theorem C1_retained_always_empty (p : whisper_params) (ctx_ok sink_ok : Bool)
    (input : AudioInput) (engine : ℕ → EngineResult) (fuel : ℕ) :
    ((runMain p ctx_ok sink_ok input engine fuel).2.all (iterEndRetainedIs [])) = true :=
  runMain_all p ctx_ok sink_ok input engine fuel (iterEndRetainedIs [])
    (fun _ _ => rfl)
    (mainLoop_retained p engine fuel input (List.replicate (n_samples_step p) 0) [] 0)

/-- C2 (counterexample): with the default `length_ms = 10000` the claimed
window capacity is `length_ms * sampleRate / 1000 = 160000`, but with
`step_ms = 1` the window actually passed to the engine holds 16 samples. -/
theorem C2_counterexample :
    ((runMain { step_ms := 1 } true true (AudioInput.rawSamples (List.replicate 16 0))
        (fun _ => EngineResult.ok []) 3).2.filter isEngineCall)
      = [Event.engineCall 0 (List.replicate 16 0)]
    ∧ ({ step_ms := 1 } : whisper_params).length_ms * (WHISPER_SAMPLE_RATE : ℤ) / 1000 = 160000
    ∧ (List.replicate 16 (0 : Sample)).length ≠ 160000 := by
  decide

/-- C2 (amended): every window passed to the engine holds exactly
`engineBufferSize` samples — `n_samples_step`, the double-arithmetic value
of `(int)((1e-3 * step_ms) * 16000)`, in raw mode, and 160000 in wav mode,
never the `length_ms`-derived capacity; after a read that yields fewer
samples than requested no engine call ever happens; and a short raw-mode
read immediately breaks the loop (stream termination), forwarding
nothing. -/
theorem C2_full_window_or_termination :
    (∀ (p : whisper_params) (ctx_ok sink_ok : Bool) (input : AudioInput)
        (engine : ℕ → EngineResult) (fuel : ℕ),
      ((runMain p ctx_ok sink_ok input engine fuel).2.all
        (engineCallLenIs (engineBufferSize p))) = true)
    ∧ (∀ (p : whisper_params) (ctx_ok sink_ok : Bool) (input : AudioInput)
        (engine : ℕ → EngineResult) (fuel : ℕ),
      noCallAfterShortRead (runMain p ctx_ok sink_ok input engine fuel).2 = true)
    ∧ (∀ (p : whisper_params) (engine : ℕ → EngineResult) (fuel : ℕ)
        (src buf old : List Sample) (iter : ℕ),
        p.from_wav_file = false → src.length < buf.length → 1 ≤ fuel →
        mainLoop p engine fuel (AudioInput.rawSamples src) buf old iter
          = ([Event.readRaw buf.length src.length], LoopExit.eofBreak)) := by
  refine ⟨?_, ?_, ?_⟩
  · intro p ctx_ok sink_ok input engine fuel
    exact runMain_all p ctx_ok sink_ok input engine fuel _
      (fun _ _ => rfl)
      (mainLoop_window_lengths p engine fuel input _ [] 0
        (fun _ => List.length_replicate _ _))
  · intro p ctx_ok sink_ok input engine fuel
    exact runMain_noCallAfterShortRead p ctx_ok sink_ok input engine fuel
  · intro p engine fuel src buf old iter hfw hshort hfuel
    obtain ⟨f, rfl⟩ : ∃ f, fuel = f + 1 := ⟨fuel - 1, by omega⟩
    have heof : (rawCinRead buf src).eofAfter = true := by
      unfold rawCinRead; simp [hshort]
    simp only [mainLoop, hfw, Bool.false_eq_true, if_false, heof, if_true]
    have hmin : min buf.length src.length = src.length := by omega
    rw [hmin]

/-- C2 (witness for the amended theorem): a one-sample stream against a
16-sample window breaks the loop with no engine call. -/
theorem C2_full_window_or_termination_witness :
    mainLoop { step_ms := 1 } (fun _ => EngineResult.ok []) 1
        (AudioInput.rawSamples [0]) (List.replicate 16 0) [] 0
      = ([Event.readRaw 16 1], LoopExit.eofBreak) :=
  C2_full_window_or_termination.2.2 { step_ms := 1 } (fun _ => EngineResult.ok []) 1
    [0] (List.replicate 16 0) [] 0 rfl (by decide) (by decide)

/-- C3 (counterexample): an all-zero window with the positive default
activity threshold (`vad_thold = 0.6`) still produces exactly one engine
call and one emitted segment — the code has no activity gate, refuting
"invokes no recognition call and emits no segments". -/
theorem C3_counterexample :
    (0 : ℚ) < ({ step_ms := 1 } : whisper_params).vad_thold
    ∧ ((runMain { step_ms := 1 } true true (AudioInput.rawSamples (List.replicate 16 0))
        (fun _ => EngineResult.ok [{ t0 := 0, t1 := 100, text := "x" }]) 3).2.countP
        isEngineCall) = 1
    ∧ ((runMain { step_ms := 1 } true true (AudioInput.rawSamples (List.replicate 16 0))
        (fun _ => EngineResult.ok [{ t0 := 0, t1 := 100, text := "x" }]) 3).2.countP
        isEmit) = 1 := by
  refine ⟨?_, by decide, by decide⟩
  change (0 : ℚ) < 6 / 10
  norm_num

/-- C3 (amended): there is no activity gate: the run is invariant under any
change of `vad_thold`, and a full-window iteration always performs an engine
call, even on an all-zero window under a positive threshold; the loop then
advances as in any other iteration. -/
theorem C3_no_activity_gate :
    (∀ (p : whisper_params) (x : ℚ) (ctx_ok sink_ok : Bool) (input : AudioInput)
        (engine : ℕ → EngineResult) (fuel : ℕ),
      runMain { p with vad_thold := x } ctx_ok sink_ok input engine fuel
        = runMain p ctx_ok sink_ok input engine fuel)
    ∧ (∀ (p : whisper_params) (src : List Sample) (engine : ℕ → EngineResult) (fuel : ℕ),
        p.from_wav_file = false → 0 < p.vad_thold → (∀ q ∈ src, q = 0) →
        n_samples_step p ≤ src.length → 1 ≤ fuel →
        0 < ((runMain p true true (AudioInput.rawSamples src) engine fuel).2.countP
          isEngineCall)) := by
  constructor
  · intro p x ctx_ok sink_ok input engine fuel
    exact runMain_congr _ p ctx_ok sink_ok input engine fuel rfl rfl rfl rfl
  · intro p src engine fuel hfw hpos hzero hlen hfuel
    obtain ⟨f, rfl⟩ : ∃ f, fuel = f + 1 := ⟨fuel - 1, by omega⟩
    unfold runMain
    rw [if_neg (by simp)]
    rw [if_neg (by simp)]
    have hblen : (List.replicate (n_samples_step p) (0 : Sample)).length = n_samples_step p :=
      List.length_replicate _ _
    have heof : (rawCinRead (List.replicate (n_samples_step p) 0) src).eofAfter = false := by
      unfold rawCinRead
      rw [hblen]
      simp
      omega
    rw [List.countP_pos_iff]
    cases hE : engine 0 with
    | err =>
      refine ⟨Event.engineCall 0 (rawCinRead (List.replicate (n_samples_step p) 0) src).buffer,
        ?_, rfl⟩
      simp only [mainLoop, hfw, Bool.false_eq_true, if_false, heof, hE]
      cases h2 : (mainLoop p engine f
          (AudioInput.rawSamples (rawCinRead (List.replicate (n_samples_step p) 0) src).rest)
          (rawCinRead (List.replicate (n_samples_step p) 0) src).buffer [] 1).2 <;>
        simp
    | ok segs =>
      refine ⟨Event.engineCall 0 (rawCinRead (List.replicate (n_samples_step p) 0) src).buffer,
        ?_, rfl⟩
      simp only [mainLoop, hfw, Bool.false_eq_true, if_false, heof, hE]
      cases h2 : (mainLoop p engine f
          (AudioInput.rawSamples (rawCinRead (List.replicate (n_samples_step p) 0) src).rest)
          (rawCinRead (List.replicate (n_samples_step p) 0) src).buffer [] 1).2 <;>
        simp

/-- C3 (witness for the amended theorem): the all-zero 16-sample stream with
the default positive threshold yields at least one engine call. -/
theorem C3_no_activity_gate_witness :
    0 < ((runMain { step_ms := 1 } true true
        (AudioInput.rawSamples (List.replicate 16 0)) (fun _ => EngineResult.err) 1).2.countP
        isEngineCall) :=
  C3_no_activity_gate.2 { step_ms := 1 } (List.replicate 16 0) (fun _ => EngineResult.err) 1
    rfl (by change (0 : ℚ) < 6 / 10; norm_num) (fun q hq => List.eq_of_mem_replicate hq)
    (by decide) (by decide)


/-- C4 (counterexample): the engine fails on iteration 0; the loop stops
there (the trace ends at the failing engine call), but the process returns
exit code 0 — not a non-zero code as claimed (`main` returns 0 after the
loop even when `whisper_full` failed). -/
theorem C4_counterexample :
    (runMain { step_ms := 1 } true true (AudioInput.rawSamples (List.replicate 16 0))
        (fun _ => EngineResult.err) 3)
      = (MainOutcome.exitCode 0,
         [Event.readRaw 16 16, Event.engineCall 0 (List.replicate 16 0)]) := by
  decide

/-- C4 (amended): in raw mode, if the engine succeeds on iterations
`0, …, k-1` and fails on iteration `k` (with enough input for `k + 1` full
windows), the run emits the segments of iterations `0, …, k-1` normally,
stops at iteration `k` right after its failing engine call with no further
iterations, and exits with code 0 (the code returns 0 even on an engine
failure, so the claimed non-zero exit code does not hold). -/
theorem C4_engine_failure_stops_loop (p : whisper_params) (engine : ℕ → EngineResult)
    (segs : ℕ → List Segment) (src : List Sample) (k fuel : ℕ)
    (hfw : p.from_wav_file = false)
    (hsrc : (k + 1) * n_samples_step p ≤ src.length)
    (hfuel : k + 1 ≤ fuel)
    (hsucc : ∀ j, j < k → engine j = EngineResult.ok (segs j))
    (hfail : engine k = EngineResult.err) :
    runMain p true true (AudioInput.rawSamples src) engine fuel
      = (MainOutcome.exitCode 0,
         (if p.fname_out ≠ "" then [Event.sinkOpen p.fname_out true] else [])
           ++ expectedFailTrace p segs (n_samples_step p) k 0 src []) := by
  have hloop := mainLoop_failAt p engine segs (n_samples_step p) hfw k fuel 0 src
    (List.replicate (n_samples_step p) 0) []
    (List.length_replicate _ _) hsrc hfuel
    (fun j hj => by simpa using hsucc j hj)
    (by simpa using hfail)
  unfold runMain
  rw [if_neg (by simp), if_neg (by simp)]
  rw [hloop]

/-- C4 (witness for the amended theorem): iteration 0 succeeds with no
segments, iteration 1 fails; the run exits 0 with the expected trace. -/
theorem C4_engine_failure_stops_loop_witness :
    runMain { step_ms := 1 } true true (AudioInput.rawSamples (List.replicate 32 0))
        (fun i => if i < 1 then EngineResult.ok [] else EngineResult.err) 2
      = (MainOutcome.exitCode 0,
         (if ({ step_ms := 1 } : whisper_params).fname_out ≠ ""
            then [Event.sinkOpen ({ step_ms := 1 } : whisper_params).fname_out true] else [])
           ++ expectedFailTrace { step_ms := 1 } (fun _ => [])
               (n_samples_step { step_ms := 1 }) 1 0 (List.replicate 32 0) []) :=
  C4_engine_failure_stops_loop { step_ms := 1 }
    (fun i => if i < 1 then EngineResult.ok [] else EngineResult.err) (fun _ => [])
    (List.replicate 32 0) 1 2 rfl (by decide) (by decide) (by decide) (by decide)

/-- C5 (counterexample): `to_timestamp` prints the centisecond remainder
with `%03d` without scaling it to milliseconds, so tick 6134 formats to
"01:01.034", not the claimed "01:01.340". -/
theorem C5_counterexample :
    to_timestamp 6134 = "01:01.034" ∧ to_timestamp 6134 ≠ "01:01.340" := by
  decide

/-- C5 (amended): `to_timestamp` is a pure function with
minutes `= t / 6000` and seconds `= (t / 100) % 60` as claimed, but its last
field is the centisecond remainder `t % 100` zero-padded to three digits
(not `(t % 100) * 10`); in particular tick 0 gives "00:00.000" and tick 6134
gives "01:01.034". -/
theorem C5_to_timestamp_formula :
    (∀ t : ℕ, to_timestamp (t : ℤ)
        = padZeroInt 2 ((t / 6000 : ℕ) : ℤ) ++ ":"
          ++ padZeroInt 2 ((t / 100 % 60 : ℕ) : ℤ)
          ++ "." ++ padZeroInt 3 ((t % 100 : ℕ) : ℤ))
    ∧ to_timestamp 0 = "00:00.000" ∧ to_timestamp 6134 = "01:01.034" := by
  refine ⟨?_, by decide, by decide⟩
  intro t
  simp only [to_timestamp]
  have h1 : Int.tdiv (t : ℤ) 100 = ((t / 100 : ℕ) : ℤ) := rfl
  rw [h1]
  have h2 : Int.tdiv ((t / 100 : ℕ) : ℤ) 60 = ((t / 100 / 60 : ℕ) : ℤ) := rfl
  rw [h2]
  have e1 : ((t / 100 / 60 : ℕ) : ℤ) = ((t / 6000 : ℕ) : ℤ) := by
    rw [Nat.div_div_eq_div_mul]
  have e2 : ((t / 100 : ℕ) : ℤ) - ((t / 100 / 60 : ℕ) : ℤ) * 60
      = ((t / 100 % 60 : ℕ) : ℤ) := by
    omega
  have e3 : (t : ℤ) - ((t / 100 : ℕ) : ℤ) * 100 = ((t % 100 : ℕ) : ℤ) := by
    omega
  rw [e2, e3, e1]

/-- C6 (counterexample): an unrecognized flag makes the parser print the
error and usage text and call `exit(0)` — the process ends with exit code 0,
not the claimed exit code 1 (the `return 1` branch in `main` is
unreachable). -/
theorem C6_counterexample :
    runProgram ["--bogus-flag"] true true (AudioInput.rawSamples [])
        (fun _ => EngineResult.err) 1
      = (MainOutcome.exitCode 0, []) ∧ (0 : ℤ) ≠ 1 := by
  decide

/-- C6 (amended): whenever argument parsing aborts the process (help or an
unrecognized flag), it does so with exit code 0 — never 1 — and before any
I/O: the run's event trace is empty (no sink open, no reads). -/
theorem C6_parse_failure_exits_zero (args : List String) (ctx_ok sink_ok : Bool)
    (input : AudioInput) (engine : ℕ → EngineResult) (fuel : ℕ) (c : ℤ)
    (h : whisper_params_parse args {} = ParseResult.exited c) :
    c = 0 ∧ runProgram args ctx_ok sink_ok input engine fuel
      = (MainOutcome.exitCode 0, []) := by
  have hc := parse_exited_zero args {} c h
  subst hc
  refine ⟨rfl, ?_⟩
  unfold runProgram
  rw [h]

/-- C6 (witness for the amended theorem): `-h` makes the parser exit; the
process ends with code 0 and an empty trace. -/
theorem C6_parse_failure_exits_zero_witness :
    (0 : ℤ) = 0 ∧ runProgram ["-h"] true true (AudioInput.rawSamples [])
      (fun _ => EngineResult.err) 1 = (MainOutcome.exitCode 0, []) :=
  C6_parse_failure_exits_zero ["-h"] true true (AudioInput.rawSamples [])
    (fun _ => EngineResult.err) 1 0 (by decide)

/-- C7 (confirmed): when an output file is configured (`fname_out ≠ ""`) and
the sink cannot be opened, the process exits with code 3, and its trace
holds only the failed sink-open event — in particular no read from the
sample source ever happens. -/
theorem C7_sink_open_failure_exits_3 (p : whisper_params) (input : AudioInput)
    (engine : ℕ → EngineResult) (fuel : ℕ) (h : p.fname_out ≠ "") :
    runMain p true false input engine fuel
      = (MainOutcome.exitCode 3, [Event.sinkOpen p.fname_out false])
    ∧ ((runMain p true false input engine fuel).2.all fun e => !(isReadEvent e)) = true := by
  have heq : runMain p true false input engine fuel
      = (MainOutcome.exitCode 3, [Event.sinkOpen p.fname_out false]) := by
    unfold runMain
    rw [if_neg (by simp), if_pos ⟨h, rfl⟩]
  refine ⟨heq, ?_⟩
  rw [heq]
  rfl

/-- C7 (witness): a concrete unopenable sink. -/
theorem C7_sink_open_failure_exits_3_witness :
    runMain { fname_out := "out.txt" } true false (AudioInput.rawSamples [])
        (fun _ => EngineResult.err) 1
      = (MainOutcome.exitCode 3, [Event.sinkOpen "out.txt" false])
    ∧ ((runMain { fname_out := "out.txt" } true false (AudioInput.rawSamples [])
        (fun _ => EngineResult.err) 1).2.all fun e => !(isReadEvent e)) = true :=
  C7_sink_open_failure_exits_3 { fname_out := "out.txt" } (AudioInput.rawSamples [])
    (fun _ => EngineResult.err) 1 (by decide)


/-- C8 (counterexample): the raw-mode engine buffer is sized by the
double-arithmetic `(int)((1e-3 * step_ms) * 16000)`, which is not always
`step_ms * sampleRate / 1000`: at `step_ms = 4007` the program computes
64111 (the double product is 64111.99999999999…, truncated), while the
claimed formula gives 64112. -/
theorem C8_counterexample :
    n_samples_step { step_ms := 4007 } = 64111
    ∧ engineBufferSize { step_ms := 4007 } = 64111
    ∧ (4007 : ℤ) * (WHISPER_SAMPLE_RATE : ℤ) / 1000 = 64112
    ∧ (64111 : ℕ) ≠ 64112 := by
  decide

/-- C8 (amended): every buffer handed to the engine has exactly
`engineBufferSize p` samples — in raw mode `n_samples_step p`, the
double-arithmetic value of `(int)((1e-3 * step_ms) * 16000)` (which equals
`step_ms * 16000 / 1000` for most but not all `step_ms`, e.g. not for 4007),
and in wav mode the fixed `WAV_BUFFER_SAMPLES = 10000 * 16000 / 1000 =
160000` — constant across all iterations of a run and determined only by the
input mode; the configured window duration has no effect at all: changing
`length_ms` leaves the whole run (outcome and trace) unchanged. -/
theorem C8_engine_buffer_mode_only :
    (∀ (p : whisper_params) (ctx_ok sink_ok : Bool) (input : AudioInput)
        (engine : ℕ → EngineResult) (fuel : ℕ),
      ((runMain p ctx_ok sink_ok input engine fuel).2.all
        (engineCallLenIs (engineBufferSize p))) = true)
    ∧ (∀ (p : whisper_params) (x : ℤ) (ctx_ok sink_ok : Bool) (input : AudioInput)
        (engine : ℕ → EngineResult) (fuel : ℕ),
      runMain { p with length_ms := x } ctx_ok sink_ok input engine fuel
        = runMain p ctx_ok sink_ok input engine fuel)
    ∧ WAV_BUFFER_SAMPLES = 10000 * WHISPER_SAMPLE_RATE / 1000 := by
  refine ⟨?_, ?_, by decide⟩
  · intro p ctx_ok sink_ok input engine fuel
    exact runMain_all p ctx_ok sink_ok input engine fuel _
      (fun _ _ => rfl)
      (mainLoop_window_lengths p engine fuel input _ [] 0
        (fun _ => List.length_replicate _ _))
  · intro p x ctx_ok sink_ok input engine fuel
    exact runMain_congr _ p ctx_ok sink_ok input engine fuel rfl rfl rfl rfl

/-- C9 (confirmed): `readWavStreamAsFloats` begins every call with
`std::cin.ignore(44)`: given at least `44 + WAV_BUFFER_BYTES` remaining
bytes, its returned window is decoded from bytes 44 … 44+319999 of the
current remainder and the stream advances by `44 + WAV_BUFFER_BYTES` — so on
every iteration after the first, 44 bytes of PCM payload are discarded, not
just one header at stream start.  At the loop level, every wav read event
that obtained any bytes was preceded by its own 44-byte skip. -/
theorem C9_wav_read_always_skips_44 :
    (∀ bs : List ℕ, 44 + WAV_BUFFER_BYTES ≤ bs.length →
      readWavStreamAsFloats bs
        = Except.ok
            { samples := wavWindowFromBytes ((bs.drop 44).take WAV_BUFFER_BYTES)
              rest := bs.drop (44 + WAV_BUFFER_BYTES)
              eofAfter := false })
    ∧ (∀ (p : whisper_params) (ctx_ok sink_ok : Bool) (input : AudioInput)
        (engine : ℕ → EngineResult) (fuel : ℕ),
      ((runMain p ctx_ok sink_ok input engine fuel).2.all wavSkipOK) = true) := by
  constructor
  · intro bs h
    have hlb : WAV_BUFFER_BYTES ≤ (bs.drop 44).length := by
      rw [List.length_drop]
      omega
    have hz : ¬ min WAV_BUFFER_BYTES (bs.drop 44).length = 0 := by
      unfold WAV_BUFFER_BYTES WAV_BUFFER_SAMPLES at *
      omega
    rw [readWav_ok_eq bs hz]
    have h1 : (bs.drop 44).drop WAV_BUFFER_BYTES = bs.drop (44 + WAV_BUFFER_BYTES) := by
      rw [List.drop_drop, Nat.add_comm]
    have h2 : decide ((bs.drop 44).length < WAV_BUFFER_BYTES) = false := by
      simp only [decide_eq_false_iff_not, not_lt]
      exact hlb
    rw [h1, h2]
  · intro p ctx_ok sink_ok input engine fuel
    exact runMain_all p ctx_ok sink_ok input engine fuel wavSkipOK
      (fun _ _ => rfl)
      (mainLoop_wavSkip p engine fuel input _ [] 0)

/-- C9 (witness): a 320044-byte stream is read as one full window with the
header-sized prefix skipped and nothing left over. -/
theorem C9_wav_read_always_skips_44_witness :
    44 + WAV_BUFFER_BYTES ≤ (List.replicate 320044 (0 : ℕ)).length
    ∧ readWavStreamAsFloats (List.replicate 320044 0)
        = Except.ok
            { samples := wavWindowFromBytes
                (((List.replicate 320044 (0 : ℕ)).drop 44).take WAV_BUFFER_BYTES)
              rest := (List.replicate 320044 (0 : ℕ)).drop (44 + WAV_BUFFER_BYTES)
              eofAfter := false } :=
  ⟨by rw [List.length_replicate]; decide,
   C9_wav_read_always_skips_44.1 (List.replicate 320044 0)
     (by rw [List.length_replicate]; decide)⟩

/-- C10 (confirmed): in wav mode, a read that finds no bytes after the
44-byte skip (here: at most 44 bytes remain at loop entry) throws the
uncaught `std::runtime_error`, so the process terminates abnormally — it
does not drain gracefully and in particular does not exit with code 0 (or
any exit code at all). -/
theorem C10_wav_empty_read_throws (p : whisper_params) (engine : ℕ → EngineResult)
    (fuel : ℕ) (bs : List ℕ)
    (hfw : p.from_wav_file = true) (hlen : bs.length ≤ 44)
    (hfname : p.fname_out = "") (hfuel : 1 ≤ fuel) :
    runMain p true true (AudioInput.wavBytes bs) engine fuel
      = (MainOutcome.uncaught "Error reading WAV data from standard input.",
         [Event.wavReadCall bs.length WAV_BUFFER_BYTES 0])
    ∧ ∀ c : ℤ, (runMain p true true (AudioInput.wavBytes bs) engine fuel).1
        ≠ MainOutcome.exitCode c := by
  obtain ⟨f, rfl⟩ : ∃ f, fuel = f + 1 := ⟨fuel - 1, by omega⟩
  have hz : min WAV_BUFFER_BYTES (bs.drop 44).length = 0 := by
    rw [List.length_drop]
    omega
  have herr := readWav_error_eq bs hz
  have hskip : min 44 bs.length = bs.length := by omega
  have hgot : min WAV_BUFFER_BYTES (bs.drop 44).length = 0 := hz
  have heq : runMain p true true (AudioInput.wavBytes bs) engine (f + 1)
      = (MainOutcome.uncaught "Error reading WAV data from standard input.",
         [Event.wavReadCall bs.length WAV_BUFFER_BYTES 0]) := by
    unfold runMain
    rw [if_neg (by simp), if_neg (by simp)]
    rw [if_neg (by simp [hfname])]
    simp only [mainLoop, hfw, if_true, herr]
    rw [List.nil_append]
    rw [show min 44 bs.length = bs.length from hskip]
    rw [hz]
  refine ⟨heq, ?_⟩
  rw [heq]
  intro c
  simp

/-- C10 (witness): the empty stream in wav mode. -/
theorem C10_wav_empty_read_throws_witness :
    runMain { from_wav_file := true } true true (AudioInput.wavBytes [])
        (fun _ => EngineResult.err) 1
      = (MainOutcome.uncaught "Error reading WAV data from standard input.",
         [Event.wavReadCall ([] : List ℕ).length WAV_BUFFER_BYTES 0])
    ∧ ∀ c : ℤ, (runMain { from_wav_file := true } true true (AudioInput.wavBytes [])
        (fun _ => EngineResult.err) 1).1 ≠ MainOutcome.exitCode c :=
  C10_wav_empty_read_throws { from_wav_file := true } (fun _ => EngineResult.err) 1 []
    rfl (by decide) rfl (by decide)

end StreamRT
